import Mathlib

/-!
Shallow embedding of the hierarchical workflow executor in
`src/agency_swarm/agency/agency.py` (the `Agency` class), covering the
parts exercised by the claims: the code-level dependency scheduler
(`code_scheduling_layer`), the persisted execution tree
(`init_context_tree` / `update_context_tree` / `clear_context_tree_node`),
the error log (`update_error`, with `_init_file` truncation), the strict
hierarchical flow (`task_planning`), the RAG flow (`task_planning_rag`),
the format-bounded completion loop (`json_get_completion` /
`get_json_from_str`) and the review check (`get_inspector_review`).

External collaborators (planner / optimizer / capability agents) are
nondeterministic LLM calls; they are modelled as oracles indexed by the
number of calls made so far, so a single oracle choice fixes one concrete
run while theorems quantify over all oracles.  File writes are modelled by
keeping the persisted documents in the state and recording a snapshot
history (one entry per write), which is what "persisted" means here.
-/

namespace AgencySwarm

/-- One execution-result record, the JSON object returned by a capability
agent: `\x7b"result": "SUCCESS"|"FAIL", "context": ...\x7d`.  Extra fields of
the JSON payload (`tool`, `command`, ...) play no role in the control flow
and are not modelled. -/
structure Action where
  result : String
  context : String
deriving DecidableEq

/-- One planner-produced work item (the value of one key of a plan graph):
`\x7b"title", "id", "description", "dep": [ids], "capability_group"?, "agent"?\x7d`.
`dep` models `info.get("dep", [])` (always-present list here). -/
structure PlanItem where
  id : String
  title : String
  description : String
  dep : List String
  capability_group : String
  agent : List String
deriving DecidableEq

/-- A plan graph as produced by a planner: the JSON object mapping item id
to item, kept as an ordered association list (Python `dict` preserves
insertion order, which the scheduler's iteration relies on). -/
abbrev Graph : Type := List (String × PlanItem)

/-- `code_scheduling_layer` (agency.py lines 2514-2548): given the graph
and the completed-id list, return (in graph order) the ids that are not
completed and whose every `dep` entry is completed.  The `print` trace and
the `pending_ids` computation have no effect on the returned value. -/
def code_scheduling_layer (graph : Graph) (completed_ids : List String) :
    List String :=
  (graph.filter (fun p =>
      !(completed_ids.contains p.1) &&
      p.2.dep.all (fun dep_id => completed_ids.contains dep_id))).map (·.1)

/-- Update the first element of a list satisfying `p` (Python's
`next(x for x in xs if ...)` followed by an in-place mutation); identity
when no element matches. -/
def updateFirst (p : α → Bool) (f : α → α) : List α → List α
  | [] => []
  | x :: xs => if p x then f x :: xs else x :: updateFirst p f xs

/-- A step node of the persisted execution tree
(`\x7bid, status, title, description, actions\x7d`). -/
structure StepNode where
  id : String
  status : String
  title : String
  description : String
  actions : List Action
deriving DecidableEq

/-- A subtask node of the persisted execution tree. -/
structure SubNode where
  id : String
  status : String
  title : String
  description : String
  steps : List StepNode
deriving DecidableEq

/-- A task node of the persisted execution tree: carries both the strict
flow's `subtasks` and the RAG flow's `rag_actions`. -/
structure TaskNode where
  id : String
  status : String
  title : String
  description : String
  subtasks : List SubNode
  rag_actions : List Action
deriving DecidableEq

/-- The root of one request's execution tree (`init_context_tree` creates
`\x7bcontent, status: "executing", tasks: []\x7d`).  Both flows operate on a
single `request_id`, so the tree document is modelled by the root node of
that request. -/
structure ReqNode where
  content : String
  status : String
  tasks : List TaskNode
deriving DecidableEq

/-- Step-level update of `update_context_tree`: an `action` is appended to
the step's log, otherwise the status is overwritten.  (All call sites
reaching the status branch pass an explicit status, hence `getD`.) -/
def upd_step_node (step : StepNode) (status : Option String)
    (action : Option Action) : StepNode :=
  match action with
  | some a => { step with actions := step.actions ++ [a] }
  | none => { step with status := status.getD step.status }

/-- `update_context_tree` (agency.py lines 2308-2410): navigate to the
addressed node, updating it when present and appending a freshly created
node otherwise.  A `rag_action` is appended to the task's `rag_actions`
log (the `tool`/`command` projection is the identity here since `Action`
carries exactly the fields the control flow reads); `description` at task
level is only overwritten when the argument is present (the RAG in-place
re-optimization). -/
def update_context_tree (tree : ReqNode)
    (task_id subtask_id step_id : Option String)
    (status title description : Option String)
    (action rag_action : Option Action) : ReqNode :=
  match task_id with
  | none => { tree with status := status.getD tree.status }
  | some tid =>
    if tree.tasks.any (·.id == tid) then
      { tree with
        tasks := updateFirst (·.id == tid) (fun task =>
          match rag_action with
          | some ra => { task with rag_actions := task.rag_actions ++ [ra] }
          | none =>
            match subtask_id with
            | none =>
              { task with status := status.getD task.status,
                          description := description.getD task.description }
            | some sid =>
              if task.subtasks.any (·.id == sid) then
                { task with
                  subtasks := updateFirst (·.id == sid) (fun sub =>
                    match step_id with
                    | none => { sub with status := status.getD sub.status }
                    | some stid =>
                      if sub.steps.any (·.id == stid) then
                        { sub with
                          steps := updateFirst (·.id == stid)
                            (fun s => upd_step_node s status action) sub.steps }
                      else
                        { sub with
                          steps := sub.steps ++
                            [{ id := stid, status := status.getD "",
                               title := title.getD "",
                               description := description.getD "",
                               actions := [] }] }) task.subtasks }
              else
                { task with
                  subtasks := task.subtasks ++
                    [{ id := sid, status := status.getD "",
                       title := title.getD "",
                       description := description.getD "",
                       steps := [] }] }) tree.tasks }
    else
      { tree with
        tasks := tree.tasks ++
          [{ id := tid, status := status.getD "", title := title.getD "",
             description := description.getD "", subtasks := [],
             rag_actions := [] }] }

/-- `clear_context_tree_node` (agency.py lines 2412-2476): empty the
addressed node's children (`actions` for a step, `steps` for a subtask,
`subtasks` for a task, `tasks` for the whole request).  The Python code
raises when the node is missing; every call site of the flows addresses a
node that was registered before, so the missing case (identity here) is
never taken. -/
def clear_context_tree_node (tree : ReqNode)
    (task_id subtask_id step_id : Option String) : ReqNode :=
  match task_id with
  | none => { tree with tasks := [] }
  | some tid =>
    { tree with
      tasks := updateFirst (·.id == tid) (fun task =>
        match subtask_id with
        | none => { task with subtasks := [] }
        | some sid =>
          { task with
            subtasks := updateFirst (·.id == sid) (fun sub =>
              match step_id with
              | none => { sub with steps := [] }
              | some stid =>
                { sub with
                  steps := updateFirst (·.id == stid)
                    (fun s => { s with actions := [] }) sub.steps })
              task.subtasks }) tree.tasks }

/-- The `error` field stored by `update_error`: the strict flow stores the
whole action object, the RAG flow stores the context string. -/
inductive ErrVal where
  | act (a : Action)
  | msg (s : String)
deriving DecidableEq

/-- One record of the error-log document:
`\x7b"error_id": "error_<n>", "step": <work item>, "error": ...\x7d`. -/
structure ErrRecord where
  error_id : String
  step : PlanItem
  error : ErrVal
deriving DecidableEq

/-- The error-log document: a JSON object keyed by the integer id, kept as
an ordered association list. -/
abbrev ErrLog : Type := List (Nat × ErrRecord)

/-- `update_error` (agency.py lines 2271-2286): read the document (absent
or empty reads as `\x7b\x7d`), set `data[error_id]` to the new record
(replacing the binding when the key already exists, appending otherwise)
and write the document back. -/
def update_error (log : ErrLog) (error_id : Nat) (error : ErrVal)
    (step : PlanItem) : ErrLog :=
  let record : ErrRecord :=
    { error_id := "error_" ++ toString error_id, step := step, error := error }
  if log.any (·.1 == error_id) then
    updateFirst (·.1 == error_id) (fun _ => (error_id, record)) log
  else
    log ++ [(error_id, record)]

/-- The mutable state threaded through a flow: the persisted execution
tree and error log together with their write histories (one snapshot per
file write — this is the sequence of externally observable persisted
states), the `error_id` counter, the number of capability-agent calls
made, and the argument traces of the collaborator calls (each planner /
optimizer call records the error message it was given). -/
structure St where
  tree : ReqNode
  treeHist : List ReqNode
  errLog : ErrLog
  logHist : List ErrLog
  errorId : Nat
  capCalls : Nat
  reqPlanArgs : List String
  subPlanArgs : List String
  stepPlanArgs : List String
  optArgs : List String
deriving DecidableEq

/-- Persist a new execution tree (a write of `context_tree.json`). -/
def writeTree (st : St) (t : ReqNode) : St :=
  { st with tree := t, treeHist := st.treeHist ++ [t] }

/-- Persist a new error log (a write, or a truncation by `_init_file`, of
`error.json`). -/
def writeLog (st : St) (l : ErrLog) : St :=
  { st with errLog := l, logHist := st.logHist ++ [l] }

/-- `id2task[...]` / `id2step[...]`: look an item up by its `id` field.
The scheduler only returns keys of the graph and the planner contract
keys each item by its `id`, so the lookup always succeeds in the flows;
the default is never reached. -/
def findItem (items : List PlanItem) (id : String) : PlanItem :=
  (items.find? (·.id == id)).getD ⟨id, "", "", [], "", []⟩

/-- Look a task node up in the persisted tree. -/
def findTask (t : ReqNode) (id : String) : Option TaskNode :=
  t.tasks.find? (·.id == id)

/-- Look a step node up in the persisted tree. -/
def findStep (t : ReqNode) (tid sid stid : String) : Option StepNode := do
  let task ← t.tasks.find? (·.id == tid)
  let sub ← task.subtasks.find? (·.id == sid)
  sub.steps.find? (·.id == stid)

/-- Outcome of one (fueled) loop of a flow: the level completed, the level
failed with an error message, or the fuel ran out (the cut we impose on
the source's unbounded retry loops). -/
inductive RunRes where
  | ok
  | err (msg : String)
  | out
deriving DecidableEq

namespace Strict

/-- Oracles for the strict flow `task_planning`: the planner collaborators
at the three levels and the capability executor, each indexed by the
number of calls made to it so far (an LLM response sequence fixes one
run; quantifying over `Env` quantifies over all collaborator behaviours).
The code-level scheduling switch (`DEBUG_CODE_SCHEDULING=true`) is on, so
scheduling is `code_scheduling_layer`. -/
structure Env where
  taskPlan : Nat → Graph
  subPlan : Nat → Graph
  stepPlan : Nat → Graph
  cap : Nat → Action

/-- Register a freshly planned task graph in the tree as `pending`
(agency.py lines 1576-1586), one persisted write per item. -/
def registerTasks (st : St) (graph : Graph) : St :=
  graph.foldl (fun st p =>
    writeTree st (update_context_tree st.tree (some p.2.id) none none
      (some "pending") (some p.2.title) (some p.2.description) none none)) st

/-- Register a freshly planned subtask graph as `pending`
(agency.py lines 1655-1665). -/
def registerSubtasks (st : St) (taskId : String) (graph : Graph) : St :=
  graph.foldl (fun st p =>
    writeTree st (update_context_tree st.tree (some taskId) (some p.2.id) none
      (some "pending") (some p.2.title) (some p.2.description) none none)) st

/-- Register a freshly planned step graph as `pending`
(agency.py lines 1753-1764). -/
def registerSteps (st : St) (taskId subId : String) (graph : Graph) : St :=
  graph.foldl (fun st p =>
    writeTree st (update_context_tree st.tree (some taskId) (some subId)
      (some p.2.id) (some "pending") (some p.2.title) (some p.2.description)
      none none)) st

/-- One leaf execution, the `while True` of agency.py lines 1829-1886 (it
always breaks after one iteration).  A (single) capability call is made;
on a well-formed result the action is recorded in the step's log, and on
`"FAIL"` an error record is appended and the step node is cleared; a
result other than `"SUCCESS"`/`"FAIL"` trips the `assert` before the tree
update, landing in the `except` branch (error counter bumped, but no
error record written).  Returns `none` on success and `some message` on
failure (the value of `step_error_message`, propagated to
`subtask_error_message`). -/
def runStepOnce (env : Env) (st : St) (taskId subId : String)
    (step : PlanItem) : St × Option String :=
  let a := env.cap st.capCalls
  let st := { st with capCalls := st.capCalls + 1 }
  if a.result == "SUCCESS" || a.result == "FAIL" then
    let st := writeTree st (update_context_tree st.tree (some taskId)
      (some subId) (some step.id) none none none (some a) none)
    if a.result == "SUCCESS" then
      (st, none)
    else
      let eid := st.errorId + 1
      let st := { st with errorId := eid }
      let st := writeLog st (update_error st.errLog eid (.act a) step)
      let st := writeTree st (clear_context_tree_node st.tree (some taskId)
        (some subId) (some step.id))
      (st, some a.context)
  else
    let st := { st with errorId := st.errorId + 1 }
    let st := writeTree st (clear_context_tree_node st.tree (some taskId)
      (some subId) (some step.id))
    (st, some ("Unknown result: " ++ a.result))

/-- The `for next_step_id in next_step_list` round (agency.py lines
1792-1899): mark the step `executing`, execute it; on failure the round
aborts immediately (`break` at 1886/1888), on success the id joins
`completed_step_ids` and the step is marked `completed`. -/
def runStepsRound (env : Env) (taskId subId : String) (steps : List PlanItem) :
    List String → St → List String → St × List String × Option String
  | [], st, completed => (st, completed, none)
  | id :: rest, st, completed =>
    let step := findItem steps id
    let st := writeTree st (update_context_tree st.tree (some taskId)
      (some subId) (some id) (some "executing") (some step.title)
      (some step.description) none none)
    let (st, r) := runStepOnce env st taskId subId step
    match r with
    | some m => (st, completed, some m)
    | none =>
      let completed := completed ++ [id]
      let st := writeTree st (update_context_tree st.tree (some taskId)
        (some subId) (some id) (some "completed") none none none none)
      runStepsRound env taskId subId steps rest st completed

/-- The step scheduling loop (`while True` of agency.py lines 1768-1902):
compute the ready set; an empty ready set breaks the loop with the level
complete, otherwise run the round and loop unless it failed. -/
def runStepSched (env : Env) (taskId subId : String) (graph : Graph)
    (steps : List PlanItem) : Nat → St → List String → St × RunRes
  | 0, st, _ => (st, .out)
  | fuel + 1, st, completed =>
    let ready := code_scheduling_layer graph completed
    if ready.isEmpty then
      (st, .ok)
    else
      let (st, completed, r) := runStepsRound env taskId subId steps ready st
        completed
      match r with
      | some m => (st, .err m)
      | none => runStepSched env taskId subId graph steps fuel st completed

/-- One subtask body, the `while True` of agency.py lines 1730-1928 (it
always breaks after one iteration: the `continue` that would replan the
steps is commented out).  Plan the steps (recording the
`subtask_error_message` passed to the step planner), register them, run
the step scheduling loop; on failure clear the subtask node and fail the
task (`task_error_flag`). -/
def runSubtaskBody (env : Env) (taskId : String) (sub : PlanItem)
    (subErrMsg : String) (fuel : Nat) (st : St) : St × RunRes :=
  let idx := st.stepPlanArgs.length
  let graph := env.stepPlan idx
  let st := { st with stepPlanArgs := st.stepPlanArgs ++ [subErrMsg] }
  let st := registerSteps st taskId sub.id graph
  let steps := graph.map (·.2)
  let (st, r) := runStepSched env taskId sub.id graph steps fuel st []
  match r with
  | .ok => (st, .ok)
  | .err m =>
    let st := writeTree st (clear_context_tree_node st.tree (some taskId)
      (some sub.id) none)
    (st, .err m)
  | .out => (st, .out)

/-- The `for next_subtask_id in next_subtask_list` round (agency.py lines
1692-1940): mark the subtask `executing`, run it (with
`subtask_error_message` freshly initialised to `""`); on failure the
round aborts (`break` at 1930), on success the id joins
`completed_subtask_ids` and the subtask is marked `completed`. -/
def runSubtasksRound (env : Env) (taskId : String) (subs : List PlanItem)
    (fuel : Nat) :
    List String → St → List String → St × List String × RunRes
  | [], st, completed => (st, completed, .ok)
  | id :: rest, st, completed =>
    let sub := findItem subs id
    let st := writeTree st (update_context_tree st.tree (some taskId)
      (some id) none (some "executing") (some sub.title)
      (some sub.description) none none)
    let (st, r) := runSubtaskBody env taskId sub "" fuel st
    match r with
    | .err m => (st, completed, .err m)
    | .out => (st, completed, .out)
    | .ok =>
      let completed := completed ++ [id]
      let st := writeTree st (update_context_tree st.tree (some taskId)
        (some id) none (some "completed") none none none none)
      runSubtasksRound env taskId subs fuel rest st completed

/-- The subtask scheduling loop (`while True` of agency.py lines
1669-1943): empty ready set means the task's subtasks are all done. -/
def runSubtaskSched (env : Env) (taskId : String) (graph : Graph)
    (subs : List PlanItem) : Nat → St → List String → St × RunRes
  | 0, st, _ => (st, .out)
  | fuel + 1, st, completed =>
    let ready := code_scheduling_layer graph completed
    if ready.isEmpty then
      (st, .ok)
    else
      let (st, completed, r) := runSubtasksRound env taskId subs fuel ready st
        completed
      match r with
      | .err m => (st, .err m)
      | .out => (st, .out)
      | .ok => runSubtaskSched env taskId graph subs fuel st completed

/-- One task body, the `while True` of agency.py lines 1640-1961: plan the
subtasks with the accumulated `task_error_message`, register them, run the
subtask scheduling loop; on success break (`task complete`), on failure
clear the task node and `continue` — replan the same task, uncapped
(hence the fuel). -/
def runTaskBody (env : Env) (taskId : String) :
    Nat → St → String → St × RunRes
  | 0, st, _ => (st, .out)
  | fuel + 1, st, taskErrMsg =>
    let idx := st.subPlanArgs.length
    let graph := env.subPlan idx
    let st := { st with subPlanArgs := st.subPlanArgs ++ [taskErrMsg] }
    let st := registerSubtasks st taskId graph
    let subs := graph.map (·.2)
    let (st, r) := runSubtaskSched env taskId graph subs fuel st []
    match r with
    | .ok => (st, .ok)
    | .err m =>
      let st := writeTree st (clear_context_tree_node st.tree (some taskId)
        none none)
      runTaskBody env taskId fuel st m
    | .out => (st, .out)

/-- The `for next_task_id in next_task_list` round (agency.py lines
1611-1970): mark the task `executing` and run it (`task_error_message`
freshly initialised to `""`); on success the id joins `completed_task_ids`
and the task is marked `completed`.  `runTaskBody` has no failing exit
(it replans until it succeeds or the fuel runs out), matching the fact
that nothing in this flow ever sets `original_request_error_flag`. -/
def runTasksRound (env : Env) (tasks : List PlanItem) (fuel : Nat) :
    List String → St → List String → St × List String × RunRes
  | [], st, completed => (st, completed, .ok)
  | id :: rest, st, completed =>
    let task := findItem tasks id
    let st := writeTree st (update_context_tree st.tree (some id) none none
      (some "executing") (some task.title) (some task.description) none none)
    let (st, r) := runTaskBody env id fuel st ""
    match r with
    | .err m => (st, completed, .err m)
    | .out => (st, completed, .out)
    | .ok =>
      let completed := completed ++ [id]
      let st := writeTree st (update_context_tree st.tree (some id) none none
        (some "completed") none none none none)
      runTasksRound env tasks fuel rest st completed

/-- The task scheduling loop (`while True` of agency.py lines 1590-1974). -/
def runTaskSched (env : Env) (graph : Graph) (tasks : List PlanItem) :
    Nat → St → List String → St × RunRes
  | 0, st, _ => (st, .out)
  | fuel + 1, st, completed =>
    let ready := code_scheduling_layer graph completed
    if ready.isEmpty then
      (st, .ok)
    else
      let (st, completed, r) := runTasksRound env tasks fuel ready st completed
      match r with
      | .err m => (st, .err m)
      | .out => (st, .out)
      | .ok => runTaskSched env graph tasks fuel st completed

/-- The outer request loop of `task_planning` (`while True` of agency.py
lines 1556-1993): plan the request into a task graph (recording the
`original_request_error_message` passed to the task planner), truncate the
error file (`self._init_file(self.error_path)`, line 1572), register the
tasks and run the task scheduling loop; completion marks the request
`completed`, failure would clear the request subtree and replan — that
branch is faithfully present but unreachable because
`original_request_error_flag` is never set in this flow. -/
def runRequest (env : Env) : Nat → St → String → St × RunRes
  | 0, st, _ => (st, .out)
  | fuel + 1, st, origErrMsg =>
    let idx := st.reqPlanArgs.length
    let graph := env.taskPlan idx
    let st := { st with reqPlanArgs := st.reqPlanArgs ++ [origErrMsg] }
    let st := writeLog st []
    let st := registerTasks st graph
    let tasks := graph.map (·.2)
    let (st, r) := runTaskSched env graph tasks fuel st []
    match r with
    | .ok =>
      let st := writeTree st (update_context_tree st.tree none none none
        (some "completed") none none none none)
      (st, .ok)
    | .err m =>
      let st := writeTree st (clear_context_tree_node st.tree none none none)
      runRequest env fuel st m
    | .out => (st, .out)

/-- The initial state of `task_planning` for one request: `init_files`
truncates the error file and `init_context_tree` creates the request root
as `executing`. -/
def initSt (original_request : String) : St :=
  let st : St :=
    { tree := { content := "", status := "", tasks := [] }, treeHist := [],
      errLog := [], logHist := [], errorId := 0, capCalls := 0,
      reqPlanArgs := [], subPlanArgs := [], stepPlanArgs := [], optArgs := [] }
  let st := writeLog st []
  writeTree st
    { content := original_request, status := "executing", tasks := [] }

/-- `task_planning` (agency.py lines 1486-1993), with `fuel` bounding the
source's unbounded loops. -/
def task_planning (env : Env) (original_request : String) (fuel : Nat) :
    St × RunRes :=
  runRequest env fuel (initSt original_request) ""

end Strict

namespace Rag

/-- Result of the task-optimizing collaborator
(`task_optimizing_layer`): `\x7b"description", "agent"\x7d`. -/
structure OptRes where
  description : String
  agent : List String
deriving DecidableEq

/-- Oracles for the RAG flow `task_planning_rag`: the request-level task
planner, the per-capability-group task optimizer, and the capability
executor, each indexed by its call count. -/
structure Env where
  taskPlan : Nat → Graph
  opt : Nat → OptRes
  cap : Nat → Action

/-- One capability execution of a task (agency.py lines 2156-2191): the
returned action is appended to the task's `rag_actions`; on `"FAIL"` an
error record (with the context string) is appended.  A result other than
`"SUCCESS"`/`"FAIL"` trips the `assert` before the tree update
(`except` branch: counter bumped, nothing recorded). -/
def runRagExec (env : Env) (st : St) (task : PlanItem) : St × Option String :=
  let a := env.cap st.capCalls
  let st := { st with capCalls := st.capCalls + 1 }
  if a.result == "SUCCESS" || a.result == "FAIL" then
    let st := writeTree st (update_context_tree st.tree (some task.id) none
      none none none none none (some a))
    if a.result == "SUCCESS" then
      (st, none)
    else
      let eid := st.errorId + 1
      let st := { st with errorId := eid }
      let st := writeLog st (update_error st.errLog eid (.msg a.context) task)
      (st, some a.context)
  else
    ({ st with errorId := st.errorId + 1 },
     some ("Unknown result: " ++ a.result))

/-- The per-task retry loop of the RAG flow (`while True` of agency.py
lines 2154-2236).  `left` is `3 - task_error_num`, so the entry point is
`left = 3` and the guard `task_error_num < 3` on the incremented counter
is `0 < left - 1`, i.e. the `left = 1` iteration escalates: execute; on
success break; on failure clear the task node, and while the bound is not
exhausted re-optimize the task in place (the optimizer is called with
`task_input["last_error"]` set to the failure message, and the
re-described task is persisted as `executing`) and retry; otherwise
escalate (`original_request_error_flag = True`).  The `left = 0` case is
unreachable from the entry point. -/
def runRagRetryLoop (env : Env) : Nat → St → PlanItem → St × RunRes
  | 0, st, _ => (st, .err "")
  | left + 1, st, task =>
    let (st, r) := runRagExec env st task
    match r with
    | none => (st, .ok)
    | some m =>
      let st := writeTree st (clear_context_tree_node st.tree (some task.id)
        none none)
      if 0 < left then
        let idx := st.optArgs.length
        let o := env.opt idx
        let st := { st with optArgs := st.optArgs ++ [m] }
        let task :=
          { task with description := o.description, agent := o.agent }
        let st := writeTree st (update_context_tree st.tree (some task.id)
          none none (some "executing") none (some task.description) none none)
        runRagRetryLoop env left st task
      else
        (st, .err m)

/-- One task of the RAG round (agency.py lines 2112-2245): mark the task
`executing`, run the initial optimization (`last_error` is `""`), persist
the re-described task, run the retry loop — and then, **on both exits of
that loop** (the success `break` at 2197 and the escalation `break` at
2236 fall through to the same code), append the id to
`completed_task_ids` and persist the task as `completed`. -/
def runRagTaskFull (env : Env) (st : St) (tasks : List PlanItem)
    (id : String) : St × RunRes :=
  let task := findItem tasks id
  let st := writeTree st (update_context_tree st.tree (some id) none none
    (some "executing") none none none none)
  let idx := st.optArgs.length
  let o := env.opt idx
  let st := { st with optArgs := st.optArgs ++ [""] }
  let task := { task with description := o.description, agent := o.agent }
  let st := writeTree st (update_context_tree st.tree (some id) none none
    (some "executing") none (some task.description) none none)
  let res := runRagRetryLoop env 3 st task
  let st := writeTree res.1 (update_context_tree res.1.tree (some id) none
    none (some "completed") none none none none)
  (st, res.2)

/-- The `for next_task_id in next_task_list` round of the RAG flow.  The
check `if original_request_error_flag: break` sits **after** the `for`
loop (agency.py line 2247), so an escalated failure does not abort the
round: the remaining ready tasks are still executed, and the flag (with
the last escalation's message) is only acted on once the round is over. -/
def runRagRound (env : Env) (tasks : List PlanItem) :
    List String → St → List String → Option String →
      St × List String × Option String
  | [], st, completed, flag => (st, completed, flag)
  | id :: rest, st, completed, flag =>
    let (st, r) := runRagTaskFull env st tasks id
    let flag := match r with
      | .err m => some m
      | _ => flag
    runRagRound env tasks rest st (completed ++ [id]) flag

/-- The RAG task scheduling loop (`while True` of agency.py lines
2093-2249): empty ready set breaks with the level complete; after a round
the error flag (if raised by any task of the round) breaks the loop with
the failure. -/
def runRagSched (env : Env) (graph : Graph) (tasks : List PlanItem) :
    Nat → St → List String → St × RunRes
  | 0, st, _ => (st, .out)
  | fuel + 1, st, completed =>
    let ready := code_scheduling_layer graph completed
    if ready.isEmpty then
      (st, .ok)
    else
      let (st, completed, flag) := runRagRound env tasks ready st completed
        none
      match flag with
      | some m => (st, .err m)
      | none => runRagSched env graph tasks fuel st completed

/-- The outer request loop of `task_planning_rag` (agency.py lines
2060-2269): plan the request into a flat task graph (recording the
`original_request_error_message` handed to the planner), truncate the
error file (`self._init_file(self.error_path)`, line 2076), register the
tasks, run the scheduling loop; completion marks the request `completed`,
escalation clears the whole request subtree and replans the request with
the accumulated message — uncapped (hence the fuel). -/
def runRagRequest (env : Env) : Nat → St → String → St × RunRes
  | 0, st, _ => (st, .out)
  | fuel + 1, st, origErrMsg =>
    let idx := st.reqPlanArgs.length
    let graph := env.taskPlan idx
    let st := { st with reqPlanArgs := st.reqPlanArgs ++ [origErrMsg] }
    let st := writeLog st []
    let st := Strict.registerTasks st graph
    let tasks := graph.map (·.2)
    let (st, r) := runRagSched env graph tasks fuel st []
    match r with
    | .ok =>
      let st := writeTree st (update_context_tree st.tree none none none
        (some "completed") none none none none)
      (st, .ok)
    | .err m =>
      let st := writeTree st (clear_context_tree_node st.tree none none none)
      runRagRequest env fuel st m
    | .out => (st, .out)

/-- `task_planning_rag` (agency.py lines 1995-2269), with `fuel` bounding
the source's unbounded request-replan loop. -/
def task_planning_rag (env : Env) (original_request : String) (fuel : Nat) :
    St × RunRes :=
  runRagRequest env fuel (Strict.initSt original_request) ""

end Rag

/-- `json.dumps(\x7b\x7d)`: the empty JSON object substituted when the
format-retry bound is exhausted. -/
def emptyJson : String := "\x7b\x7d"

/-- The correction message rebuilt from the original input, the previous
answer and a feedback text (agency.py lines 2784-2794 and 2842-2852 share
this shape; the format path's feedback is the fixed string
`"Your output format is wrong."`). -/
def mkFeedback (orig result feedback : String) : String :=
  "用户原始输入为: \n```\n" ++ orig ++ "\n```\n" ++
  "你之前的回答是:\n```\n" ++ result ++ "\n```\n" ++
  "你之前的回答用户评价为: \n```\n" ++ feedback ++ "\n```\n"

/-- The format-failure correction note. -/
def mkFormatRetry (orig result : String) : String :=
  mkFeedback orig result "Your output format is wrong."

/-- The retry loop of `json_get_completion` without an inspector
(agency.py lines 2769-2798, 2854-2855), abstracted over the JSON
extractor `parse` (the behaviour of `get_json_from_str`: a flag and the
extracted-or-original string) and the collaborator `oracle` (response of
the `idx`-th `thread.get_completion` call to a given message).
`retriesLeft` is `3 - count_flag_false`, so the guard
`count_flag_false + 1 <= 3` on the incremented counter is
`0 < retriesLeft` and the entry point is `retriesLeft = 3`.  Returns the
result, the total number of collaborator calls made, and the messages
actually sent. -/
def json_get_completion (parse : String → Bool × String)
    (oracle : Nat → String → String) (orig : String) :
    Nat → Nat → String → List String → String × Nat × List String
  | retriesLeft, idx, message, sent =>
    let response := oracle idx message
    let (flag, result) := parse response
    if flag == false then
      let message' := mkFormatRetry orig result
      match retriesLeft with
      | left + 1 =>
        json_get_completion parse oracle orig left (idx + 1) message'
          (sent ++ [message'])
      | 0 => (emptyJson, idx + 1, sent)
    else
      (result, idx + 1, sent)

/-- A single `json_get_completion` call on original message `orig`: the
first message sent is `orig` itself and `count_flag_false` is `0`. -/
def json_get_completion_call (parse : String → Bool × String)
    (oracle : Nat → String → String) (orig : String) :
    String × Nat × List String :=
  json_get_completion parse oracle orig 3 0 orig [orig]

/-- The abstract outcome of `json.loads` on an inspector response:
either a JSON object with string fields together with the raw text, or a
response that does not parse as a JSON object (`JSONDecodeError`, or a
non-object value whose subscription raises `TypeError`) with its raw
text. -/
inductive JMsg where
  | obj (fields : List (String × String)) (raw : String)
  | bad (raw : String)
deriving DecidableEq

/-- The raw text of an inspector response. -/
def JMsg.raw : JMsg → String
  | .obj _ raw => raw
  | .bad raw => raw

/-- Python's `"YES" in message` / `message.index("YES")` succeeding: the
character sequence `YES` occurs somewhere in `s`. -/
def containsYES (s : String) : Bool :=
  decide ("YES".toList <:+: s.toList)

/-- `get_inspector_review` (agency.py lines 2857-2870): parse the
response and compare its `review` field with `"YES"`; when parsing or the
field access raises, fall back to searching the raw text for the
substring `"YES"` and report approval iff it occurs. -/
def get_inspector_review (m : JMsg) : Bool :=
  match m with
  | .obj fields raw =>
    match fields.lookup "review" with
    | some v => v == "YES"
    | none => containsYES raw
  | .bad raw => containsYES raw

/-- The retry loop of `json_get_completion` with an inspector thread
(agency.py lines 2769-2855), with `DEBUG_INSPECTOR_TYPE` set to an
agent-driven value (neither `"off"`, which skips review, nor the
interactive `"user"` branch).  Format failures are bounded by
`count_flag_false` exactly as without an inspector; review rejections
loop uncapped (hence the fuel), resending with the inspector's raw
response as feedback.  Returns `none` on fuel exhaustion, otherwise the
accepted result, with the collaborator and inspector call counts. -/
def json_get_completion_insp (parse : String → Bool × String)
    (oracle : Nat → String → String) (insp : Nat → JMsg) (orig : String) :
    Nat → Nat → Nat → Nat → String → Option String × Nat × Nat
  | 0, idx, iidx, _, _ => (none, idx, iidx)
  | fuel + 1, idx, iidx, count, message =>
    let response := oracle idx message
    let (flag, result) := parse response
    if flag == false then
      let count' := count + 1
      let message' := mkFormatRetry orig result
      if count' ≤ 3 then
        json_get_completion_insp parse oracle insp orig fuel (idx + 1) iidx
          count' message'
      else
        (some emptyJson, idx + 1, iidx)
    else
      let im := insp iidx
      if get_inspector_review im then
        (some result, idx + 1, iidx + 1)
      else
        json_get_completion_insp parse oracle insp orig fuel (idx + 1)
          (iidx + 1) count (mkFeedback orig result im.raw)

/-- A concrete work item used by the concrete runs below. -/
def itm (id : String) (dep : List String) : PlanItem :=
  ⟨id, "t_" ++ id, "d_" ++ id, dep, "G", ["A"]⟩

/-- RAG oracles: a single-task plan, a constant optimizer, a capability
that always fails with context `"boom"`. -/
def envRagFail : Rag.Env :=
  { taskPlan := fun _ => [("t1", itm "t1" [])],
    opt := fun _ => ⟨"D", ["A"]⟩,
    cap := fun _ => ⟨"FAIL", "boom"⟩ }

/-- RAG oracles: a single-task plan, a capability that fails three times
(contexts `"e0"`, `"e1"`, `"e2"`) and then succeeds — so the first pass
escalates and the replanned request completes. -/
def envRagRecover : Rag.Env :=
  { taskPlan := fun _ => [("t1", itm "t1" [])],
    opt := fun _ => ⟨"D", ["A"]⟩,
    cap := fun k =>
      if k < 3 then ⟨"FAIL", "e" ++ toString k⟩ else ⟨"SUCCESS", "ok"⟩ }

/-- RAG oracles: two independent tasks in one round, a capability that
always fails. -/
def envRagTwo : Rag.Env :=
  { taskPlan := fun _ => [("t1", itm "t1" []), ("t2", itm "t2" [])],
    opt := fun _ => ⟨"D", ["A"]⟩,
    cap := fun _ => ⟨"FAIL", "boom"⟩ }

/-- Strict-flow oracles: one task, one subtask, one step; the first
capability call fails with context `"disk full"`, every later one
succeeds. -/
def envStrict1 : Strict.Env :=
  { taskPlan := fun _ => [("t1", itm "t1" [])],
    subPlan := fun _ => [("s1", itm "s1" [])],
    stepPlan := fun _ => [("p1", itm "p1" [])],
    cap := fun k =>
      if k == 0 then ⟨"FAIL", "disk full"⟩ else ⟨"SUCCESS", "done"⟩ }

/-- The state right after `init_files` / `init_context_tree` for request
text `"req"`. -/
def st0 : St := Strict.initSt "req"

/-- A JSON extractor that accepts every response verbatim. -/
def parseOK : String → Bool × String := fun s => (true, s)

/-- A JSON extractor that never finds a JSON object (returns the
original message, as `get_json_from_str` does). -/
def parseNever : String → Bool × String := fun s => (false, s)

/-- A collaborator that always answers `"PLAN"`. -/
def oraclePlan : Nat → String → String := fun _ _ => "PLAN"

/-- An inspector whose response is prose that cannot be parsed as the
`\x7breview, explain\x7d` shape but happens to contain `"YES"`. -/
def inspProseYes : Nat → JMsg :=
  fun _ => .bad "SURE, YES, THE PLAN LOOKS GREAT."

/-- A collaborator that always answers `"junk"`. -/
def oracleJunk : Nat → String → String := fun _ _ => "junk"

/-- Strict-flow oracles whose capability always fails with `"boom"`: one
task, two subtasks, one step per subtask. -/
def envStrictFail : Strict.Env :=
  { taskPlan := fun _ => [("t1", itm "t1" [])],
    subPlan := fun _ => [("s1", itm "s1" []), ("s2", itm "s2" [])],
    stepPlan := fun _ => [("p1", itm "p1" [])],
    cap := fun _ => ⟨"FAIL", "boom"⟩ }

/-- A two-node dependency cycle: `a` depends on `b` and `b` on `a`. -/
def gcyc : Graph := [("a", itm "a" ["b"]), ("b", itm "b" ["a"])]

/-- A graph whose only item references the nonexistent id `"b"`. -/
def gdangling : Graph := [("a", itm "a" ["b"])]

/-- A sample error record under key 1. -/
def errRec1 : ErrRecord := ⟨"error_1", itm "a" [], .msg "m"⟩

/-- The sequence of messages `json_get_completion` sends when every
response fails to parse: the original message followed by correction
notes, each quoting the previous failed answer. -/
def retryMsg (parse : String → Bool × String)
    (oracle : Nat → String → String) (orig : String) : Nat → String
  | 0 => orig
  | k + 1 =>
    mkFormatRetry orig (parse (oracle k (retryMsg parse oracle orig k))).2

end AgencySwarm

namespace AgencySwarm

/-- Membership in the ready list returned by `code_scheduling_layer` is
exactly: the id keys an entry of the graph, it is not completed, and every
one of its dependencies is completed. -/
lemma mem_code_scheduling_layer (graph : Graph) (completed : List String)
    (x : String) :
    x ∈ code_scheduling_layer graph completed ↔
      ∃ e : PlanItem, (x, e) ∈ graph ∧ x ∉ completed ∧
        ∀ d ∈ e.dep, d ∈ completed := by
  simp only [code_scheduling_layer, List.mem_map, List.mem_filter,
    Bool.and_eq_true, Bool.not_eq_true', List.contains, List.elem_eq_mem,
    decide_eq_false_iff_not, List.all_eq_true, decide_eq_true_eq]
  constructor
  · rintro ⟨⟨k, e⟩, ⟨hmem, hnc, hdep⟩, rfl⟩
    exact ⟨e, hmem, hnc, hdep⟩
  · rintro ⟨e, hmem, hnc, hdep⟩
    exact ⟨(x, e), ⟨hmem, hnc, hdep⟩, rfl⟩

end AgencySwarm

namespace AgencySwarm

@[simp] lemma writeTree_reqPlanArgs (st : St) (t : ReqNode) :
    (writeTree st t).reqPlanArgs = st.reqPlanArgs := rfl

@[simp] lemma writeTree_subPlanArgs (st : St) (t : ReqNode) :
    (writeTree st t).subPlanArgs = st.subPlanArgs := rfl

@[simp] lemma writeLog_reqPlanArgs (st : St) (l : ErrLog) :
    (writeLog st l).reqPlanArgs = st.reqPlanArgs := rfl

@[simp] lemma writeLog_subPlanArgs (st : St) (l : ErrLog) :
    (writeLog st l).subPlanArgs = st.subPlanArgs := rfl

@[simp] lemma registerTasks_reqPlanArgs (st : St) (g : Graph) :
    (Strict.registerTasks st g).reqPlanArgs = st.reqPlanArgs := by
  induction g generalizing st with
  | nil => rfl
  | cons p rest ih => simp [Strict.registerTasks] at ih ⊢; exact ih _

@[simp] lemma registerSubtasks_plan_args (st : St) (tid : String) (g : Graph) :
    (Strict.registerSubtasks st tid g).reqPlanArgs = st.reqPlanArgs ∧
    (Strict.registerSubtasks st tid g).subPlanArgs = st.subPlanArgs := by
  induction g generalizing st with
  | nil => exact ⟨rfl, rfl⟩
  | cons p rest ih => simp [Strict.registerSubtasks] at ih ⊢; exact ih _

@[simp] lemma registerSteps_plan_args (st : St) (tid sid : String) (g : Graph) :
    (Strict.registerSteps st tid sid g).reqPlanArgs = st.reqPlanArgs ∧
    (Strict.registerSteps st tid sid g).subPlanArgs = st.subPlanArgs := by
  induction g generalizing st with
  | nil => exact ⟨rfl, rfl⟩
  | cons p rest ih => simp [Strict.registerSteps] at ih ⊢; exact ih _

lemma runStepOnce_plan_args (env : Strict.Env) (st : St) (tid sid : String)
    (step : PlanItem) :
    (Strict.runStepOnce env st tid sid step).1.reqPlanArgs = st.reqPlanArgs ∧
    (Strict.runStepOnce env st tid sid step).1.subPlanArgs = st.subPlanArgs := by
  simp only [Strict.runStepOnce, writeTree, writeLog]
  split <;> (try split) <;> simp

lemma runStepsRound_plan_args (env : Strict.Env) (tid sid : String)
    (steps : List PlanItem) :
    ∀ (ids : List String) (st : St) (completed : List String),
    (Strict.runStepsRound env tid sid steps ids st completed).1.reqPlanArgs =
      st.reqPlanArgs ∧
    (Strict.runStepsRound env tid sid steps ids st completed).1.subPlanArgs =
      st.subPlanArgs := by
  intro ids
  induction ids with
  | nil => intro st completed; exact ⟨rfl, rfl⟩
  | cons id rest ih =>
    intro st completed
    simp only [Strict.runStepsRound]
    have h := runStepOnce_plan_args env
      (writeTree st (update_context_tree st.tree (some tid) (some sid)
        (some id) (some "executing") (some (findItem steps id).title)
        (some (findItem steps id).description) none none)) tid sid
      (findItem steps id)
    simp only [writeTree_reqPlanArgs, writeTree_subPlanArgs] at h
    split
    · simpa using h
    · constructor
      · rw [(ih _ _).1]; simpa using h.1
      · rw [(ih _ _).2]; simpa using h.2

lemma runStepSched_plan_args (env : Strict.Env) (tid sid : String)
    (graph : Graph) (steps : List PlanItem) :
    ∀ (fuel : Nat) (st : St) (completed : List String),
    (Strict.runStepSched env tid sid graph steps fuel st completed).1.reqPlanArgs =
      st.reqPlanArgs ∧
    (Strict.runStepSched env tid sid graph steps fuel st completed).1.subPlanArgs =
      st.subPlanArgs := by
  intro fuel
  induction fuel with
  | zero => intro st completed; exact ⟨rfl, rfl⟩
  | succ fuel ih =>
    intro st completed
    simp only [Strict.runStepSched]
    have h := runStepsRound_plan_args env tid sid steps
      (code_scheduling_layer graph completed) st completed
    split
    · exact ⟨rfl, rfl⟩
    · split
      · simpa using h
      · constructor
        · rw [(ih _ _).1]; exact h.1
        · rw [(ih _ _).2]; exact h.2

end AgencySwarm

namespace AgencySwarm

lemma runSubtaskBody_plan_args (env : Strict.Env) (tid : String)
    (sub : PlanItem) (msg : String) (fuel : Nat) (st : St) :
    (Strict.runSubtaskBody env tid sub msg fuel st).1.reqPlanArgs =
      st.reqPlanArgs ∧
    (Strict.runSubtaskBody env tid sub msg fuel st).1.subPlanArgs =
      st.subPlanArgs := by
  simp only [Strict.runSubtaskBody]
  split
  · constructor
    · rw [(runStepSched_plan_args env tid sub.id _ _ fuel _ _).1]; simp
    · rw [(runStepSched_plan_args env tid sub.id _ _ fuel _ _).2]; simp
  · constructor
    · rw [writeTree_reqPlanArgs,
        (runStepSched_plan_args env tid sub.id _ _ fuel _ _).1]; simp
    · rw [writeTree_subPlanArgs,
        (runStepSched_plan_args env tid sub.id _ _ fuel _ _).2]; simp
  · constructor
    · rw [(runStepSched_plan_args env tid sub.id _ _ fuel _ _).1]; simp
    · rw [(runStepSched_plan_args env tid sub.id _ _ fuel _ _).2]; simp

lemma runSubtasksRound_plan_args (env : Strict.Env) (tid : String)
    (subs : List PlanItem) (fuel : Nat) :
    ∀ (ids : List String) (st : St) (completed : List String),
    (Strict.runSubtasksRound env tid subs fuel ids st completed).1.reqPlanArgs =
      st.reqPlanArgs ∧
    (Strict.runSubtasksRound env tid subs fuel ids st completed).1.subPlanArgs =
      st.subPlanArgs := by
  intro ids
  induction ids with
  | nil => intro st completed; exact ⟨rfl, rfl⟩
  | cons id rest ih =>
    intro st completed
    simp only [Strict.runSubtasksRound]
    have h := runSubtaskBody_plan_args env tid (findItem subs id) ""
      fuel (writeTree st (update_context_tree st.tree (some tid) (some id)
        none (some "executing") (some (findItem subs id).title)
        (some (findItem subs id).description) none none))
    simp only [writeTree_reqPlanArgs, writeTree_subPlanArgs] at h
    split
    · simpa using h
    · simpa using h
    · constructor
      · rw [(ih _ _).1]; simpa using h.1
      · rw [(ih _ _).2]; simpa using h.2

lemma runSubtaskSched_plan_args (env : Strict.Env) (tid : String)
    (graph : Graph) (subs : List PlanItem) :
    ∀ (fuel : Nat) (st : St) (completed : List String),
    (Strict.runSubtaskSched env tid graph subs fuel st completed).1.reqPlanArgs =
      st.reqPlanArgs ∧
    (Strict.runSubtaskSched env tid graph subs fuel st completed).1.subPlanArgs =
      st.subPlanArgs := by
  intro fuel
  induction fuel with
  | zero => intro st completed; exact ⟨rfl, rfl⟩
  | succ fuel ih =>
    intro st completed
    simp only [Strict.runSubtaskSched]
    have h := runSubtasksRound_plan_args env tid subs fuel
      (code_scheduling_layer graph completed) st completed
    split
    · exact ⟨rfl, rfl⟩
    · split
      · simpa using h
      · simpa using h
      · constructor
        · rw [(ih _ _).1]; exact h.1
        · rw [(ih _ _).2]; exact h.2

lemma runTaskBody_reqPlanArgs (env : Strict.Env) (tid : String) :
    ∀ (fuel : Nat) (st : St) (msg : String),
    (Strict.runTaskBody env tid fuel st msg).1.reqPlanArgs =
      st.reqPlanArgs := by
  intro fuel
  induction fuel with
  | zero => intro st msg; rfl
  | succ fuel ih =>
    intro st msg
    simp only [Strict.runTaskBody]
    have h := (runSubtaskSched_plan_args env tid
      (env.subPlan st.subPlanArgs.length)
      ((env.subPlan st.subPlanArgs.length).map (·.2)) fuel
      (Strict.registerSubtasks
        { st with subPlanArgs := st.subPlanArgs ++ [msg] } tid
        (env.subPlan st.subPlanArgs.length)) []).1
    rw [(registerSubtasks_plan_args _ _ _).1] at h
    split
    · simpa using h
    · rw [ih _ _, writeTree_reqPlanArgs]; exact h
    · simpa using h

end AgencySwarm

namespace AgencySwarm

lemma runTaskBody_not_err (env : Strict.Env) (tid : String) :
    ∀ (fuel : Nat) (st : St) (msg : String),
    (Strict.runTaskBody env tid fuel st msg).2 = RunRes.ok ∨
    (Strict.runTaskBody env tid fuel st msg).2 = RunRes.out := by
  intro fuel
  induction fuel with
  | zero => intro st msg; right; rfl
  | succ fuel ih =>
    intro st msg
    simp only [Strict.runTaskBody]
    split
    · left; rfl
    · exact ih _ _
    · right; rfl

lemma runTasksRound_not_err (env : Strict.Env) (tasks : List PlanItem)
    (fuel : Nat) :
    ∀ (ids : List String) (st : St) (completed : List String),
    (Strict.runTasksRound env tasks fuel ids st completed).2.2 = RunRes.ok ∨
    (Strict.runTasksRound env tasks fuel ids st completed).2.2 = RunRes.out := by
  intro ids
  induction ids with
  | nil => intro st completed; left; rfl
  | cons id rest ih =>
    intro st completed
    simp only [Strict.runTasksRound]
    split
    · next heq =>
      have h := runTaskBody_not_err env id fuel
        (writeTree st (update_context_tree st.tree (some id) none none
          (some "executing") (some (findItem tasks id).title)
          (some (findItem tasks id).description) none none)) ""
      rw [heq] at h
      rcases h with h | h <;> simp at h
    · right; rfl
    · exact ih _ _

lemma runTaskSched_not_err (env : Strict.Env) (graph : Graph)
    (tasks : List PlanItem) :
    ∀ (fuel : Nat) (st : St) (completed : List String),
    (Strict.runTaskSched env graph tasks fuel st completed).2 = RunRes.ok ∨
    (Strict.runTaskSched env graph tasks fuel st completed).2 = RunRes.out := by
  intro fuel
  induction fuel with
  | zero => intro st completed; right; rfl
  | succ fuel ih =>
    intro st completed
    simp only [Strict.runTaskSched]
    split
    · left; rfl
    · split
      · next heq =>
        have h := runTasksRound_not_err env tasks fuel
          (code_scheduling_layer graph completed) st completed
        rw [heq] at h
        rcases h with h | h <;> simp at h
      · right; rfl
      · exact ih _ _

lemma runTasksRound_reqPlanArgs (env : Strict.Env) (tasks : List PlanItem)
    (fuel : Nat) :
    ∀ (ids : List String) (st : St) (completed : List String),
    (Strict.runTasksRound env tasks fuel ids st completed).1.reqPlanArgs =
      st.reqPlanArgs := by
  intro ids
  induction ids with
  | nil => intro st completed; rfl
  | cons id rest ih =>
    intro st completed
    simp only [Strict.runTasksRound]
    have h := runTaskBody_reqPlanArgs env id fuel
      (writeTree st (update_context_tree st.tree (some id) none none
        (some "executing") (some (findItem tasks id).title)
        (some (findItem tasks id).description) none none)) ""
    simp only [writeTree_reqPlanArgs] at h
    split
    · simpa using h
    · simpa using h
    · rw [ih _ _, writeTree_reqPlanArgs]; simpa using h

lemma runTaskSched_reqPlanArgs (env : Strict.Env) (graph : Graph)
    (tasks : List PlanItem) :
    ∀ (fuel : Nat) (st : St) (completed : List String),
    (Strict.runTaskSched env graph tasks fuel st completed).1.reqPlanArgs =
      st.reqPlanArgs := by
  intro fuel
  induction fuel with
  | zero => intro st completed; rfl
  | succ fuel ih =>
    intro st completed
    simp only [Strict.runTaskSched]
    have h := runTasksRound_reqPlanArgs env tasks fuel
      (code_scheduling_layer graph completed) st completed
    split
    · rfl
    · split
      · simpa using h
      · simpa using h
      · rw [ih _ _]; exact h

lemma runRequest_reqPlanArgs (env : Strict.Env) (fuel : Nat) (st : St)
    (msg : String) :
    (Strict.runRequest env (fuel + 1) st msg).1.reqPlanArgs =
      st.reqPlanArgs ++ [msg] := by
  simp only [Strict.runRequest]
  have h := runTaskSched_reqPlanArgs env (env.taskPlan st.reqPlanArgs.length)
    ((env.taskPlan st.reqPlanArgs.length).map (·.2)) fuel
    (Strict.registerTasks
      (writeLog { st with reqPlanArgs := st.reqPlanArgs ++ [msg] } [])
      (env.taskPlan st.reqPlanArgs.length)) []
  rw [registerTasks_reqPlanArgs, writeLog_reqPlanArgs] at h
  have hne := runTaskSched_not_err env (env.taskPlan st.reqPlanArgs.length)
    ((env.taskPlan st.reqPlanArgs.length).map (·.2)) fuel
    (Strict.registerTasks
      (writeLog { st with reqPlanArgs := st.reqPlanArgs ++ [msg] } [])
      (env.taskPlan st.reqPlanArgs.length)) []
  split
  · simpa using h
  · next heq =>
    rw [heq] at hne
    rcases hne with hne | hne <;> simp at hne
  · simpa using h

end AgencySwarm

namespace AgencySwarm

@[simp] lemma writeTree_errLog (st : St) (t : ReqNode) :
    (writeTree st t).errLog = st.errLog := rfl

@[simp] lemma writeTree_errorId (st : St) (t : ReqNode) :
    (writeTree st t).errorId = st.errorId := rfl

@[simp] lemma writeTree_capCalls (st : St) (t : ReqNode) :
    (writeTree st t).capCalls = st.capCalls := rfl

@[simp] lemma writeTree_tree (st : St) (t : ReqNode) :
    (writeTree st t).tree = t := rfl

@[simp] lemma writeLog_errLog (st : St) (l : ErrLog) :
    (writeLog st l).errLog = l := rfl

@[simp] lemma writeLog_tree (st : St) (l : ErrLog) :
    (writeLog st l).tree = st.tree := rfl

lemma runStepOnce_fail (env : Strict.Env) (st : St) (tid sid : String)
    (step : PlanItem) (hres : (env.cap st.capCalls).result = "FAIL") :
    (Strict.runStepOnce env st tid sid step).2 =
      some (env.cap st.capCalls).context ∧
    (Strict.runStepOnce env st tid sid step).1.errLog =
      update_error st.errLog (st.errorId + 1) (.act (env.cap st.capCalls))
        step ∧
    (Strict.runStepOnce env st tid sid step).1.tree =
      clear_context_tree_node
        (update_context_tree st.tree (some tid) (some sid) (some step.id)
          none none none (some (env.cap st.capCalls)) none)
        (some tid) (some sid) (some step.id) := by
  simp [Strict.runStepOnce, hres, writeTree, writeLog]

lemma runTaskBody_subArgs_prefix (env : Strict.Env) (tid : String) :
    ∀ (fuel : Nat) (st : St) (msg : String), 0 < fuel →
    st.subPlanArgs ++ [msg] <+:
      (Strict.runTaskBody env tid fuel st msg).1.subPlanArgs := by
  intro fuel
  induction fuel with
  | zero => intro st msg h; omega
  | succ fuel ih =>
    intro st msg _
    simp only [Strict.runTaskBody]
    have h := (runSubtaskSched_plan_args env tid
      (env.subPlan st.subPlanArgs.length)
      ((env.subPlan st.subPlanArgs.length).map (·.2)) fuel
      (Strict.registerSubtasks
        { st with subPlanArgs := st.subPlanArgs ++ [msg] } tid
        (env.subPlan st.subPlanArgs.length)) []).2
    clear h
    split
    · dsimp only
      rw [(runSubtaskSched_plan_args env tid _ _ fuel _ _).2,
        (registerSubtasks_plan_args _ _ _).2]
    · rcases Nat.eq_zero_or_pos fuel with hf | hf
      · subst hf
        simp only [Strict.runTaskBody, writeTree_subPlanArgs]
        rw [(runSubtaskSched_plan_args env tid _ _ 0 _ _).2,
          (registerSubtasks_plan_args _ _ _).2]
      · refine List.IsPrefix.trans ?_ (ih _ _ hf)
        rw [writeTree_subPlanArgs,
          (runSubtaskSched_plan_args env tid _ _ fuel _ _).2,
          (registerSubtasks_plan_args _ _ _).2]
        exact List.prefix_append _ _
    · dsimp only
      rw [(runSubtaskSched_plan_args env tid _ _ fuel _ _).2,
        (registerSubtasks_plan_args _ _ _).2]

end AgencySwarm

namespace AgencySwarm

lemma runStepsRound_append (env : Strict.Env) (tid sid : String)
    (steps : List PlanItem) :
    ∀ (pre rest : List String) (st : St) (completed : List String),
    Strict.runStepsRound env tid sid steps (pre ++ rest) st completed =
      match Strict.runStepsRound env tid sid steps pre st completed with
      | (st1, c1, some m) => (st1, c1, some m)
      | (st1, c1, none) => Strict.runStepsRound env tid sid steps rest st1 c1 := by
  intro pre
  induction pre with
  | nil =>
    intro rest st completed
    simp [Strict.runStepsRound]
  | cons id pre ih =>
    intro rest st completed
    simp only [List.cons_append, Strict.runStepsRound]
    split
    · rfl
    · exact ih _ _ _

lemma runStepsRound_abort (env : Strict.Env) (tid sid : String)
    (steps : List PlanItem) (pre : List String) (bad : String)
    (post : List String) (st : St) (completed : List String)
    (hpre : (Strict.runStepsRound env tid sid steps pre st completed).2.2 = none)
    (hfail : (env.cap
      (Strict.runStepsRound env tid sid steps pre st completed).1.capCalls).result
        = "FAIL") :
    Strict.runStepsRound env tid sid steps (pre ++ bad :: post) st completed =
      Strict.runStepsRound env tid sid steps (pre ++ [bad]) st completed ∧
    (Strict.runStepsRound env tid sid steps (pre ++ bad :: post) st
        completed).2.2 =
      some (env.cap
        (Strict.runStepsRound env tid sid steps pre st completed).1.capCalls).context := by
  rcases hsplit : Strict.runStepsRound env tid sid steps pre st completed with
    ⟨st1, c1, r1⟩
  rw [hsplit] at hpre hfail
  dsimp only at hpre hfail
  subst hpre
  have hexec := runStepOnce_fail env
    (writeTree st1 (update_context_tree st1.tree (some tid) (some sid)
      (some bad) (some "executing") (some (findItem steps bad).title)
      (some (findItem steps bad).description) none none)) tid sid
    (findItem steps bad) (by simpa using hfail)
  rw [runStepsRound_append, runStepsRound_append env tid sid steps pre [bad], hsplit]
  dsimp only
  constructor
  · simp only [Strict.runStepsRound]
    split
    · rfl
    · next heq =>
      rw [heq] at hexec
      simp at hexec
  · simp only [Strict.runStepsRound]
    split
    · next m heq =>
      rw [heq] at hexec
      simp only [writeTree_capCalls] at hexec
      have := hexec.1
      simp at this
      simpa using this
    · next heq =>
      rw [heq] at hexec
      simp at hexec

lemma runSubtasksRound_append (env : Strict.Env) (tid : String)
    (subs : List PlanItem) (fuel : Nat) :
    ∀ (pre rest : List String) (st : St) (completed : List String),
    Strict.runSubtasksRound env tid subs fuel (pre ++ rest) st completed =
      match Strict.runSubtasksRound env tid subs fuel pre st completed with
      | (st1, c1, RunRes.ok) =>
        Strict.runSubtasksRound env tid subs fuel rest st1 c1
      | (st1, c1, RunRes.err m) => (st1, c1, RunRes.err m)
      | (st1, c1, RunRes.out) => (st1, c1, RunRes.out) := by
  intro pre
  induction pre with
  | nil =>
    intro rest st completed
    simp [Strict.runSubtasksRound]
  | cons id pre ih =>
    intro rest st completed
    simp only [List.cons_append, Strict.runSubtasksRound]
    split
    · rfl
    · rfl
    · exact ih _ _ _

lemma runSubtasksRound_abort (env : Strict.Env) (tid : String)
    (subs : List PlanItem) (fuel : Nat) (pre : List String) (bad : String)
    (post : List String) (st : St) (completed : List String) (m : String)
    (hpre : (Strict.runSubtasksRound env tid subs fuel pre st
      completed).2.2 = RunRes.ok)
    (hfail : (Strict.runSubtaskBody env tid (findItem subs bad) "" fuel
      (writeTree (Strict.runSubtasksRound env tid subs fuel pre st
        completed).1
        (update_context_tree (Strict.runSubtasksRound env tid subs fuel pre
          st completed).1.tree
          (some tid) (some bad) none (some "executing")
          (some (findItem subs bad).title)
          (some (findItem subs bad).description) none none))).2 =
      RunRes.err m) :
    Strict.runSubtasksRound env tid subs fuel (pre ++ bad :: post) st
        completed =
      Strict.runSubtasksRound env tid subs fuel (pre ++ [bad]) st completed ∧
    (Strict.runSubtasksRound env tid subs fuel (pre ++ bad :: post) st
        completed).2.2 = RunRes.err m := by
  rcases hsplit : Strict.runSubtasksRound env tid subs fuel pre st completed
    with ⟨st1, c1, r1⟩
  rw [hsplit] at hpre hfail
  dsimp only at hpre hfail
  subst hpre
  rw [runSubtasksRound_append,
    runSubtasksRound_append env tid subs fuel pre [bad], hsplit]
  dsimp only
  refine ⟨?_, ?_⟩ <;>
    simp only [Strict.runSubtasksRound] <;>
    split <;>
    first
      | rfl
      | (rename_i heq2; rw [heq2] at hfail; simp at hfail; done)
      | (rename_i heq2; rw [heq2] at hfail;
         simp only [RunRes.err.injEq] at hfail; rw [hfail])


@[simp] lemma writeTree_optArgs (st : St) (t : ReqNode) :
    (writeTree st t).optArgs = st.optArgs := rfl

@[simp] lemma writeLog_optArgs (st : St) (l : ErrLog) :
    (writeLog st l).optArgs = st.optArgs := rfl

@[simp] lemma writeLog_capCalls (st : St) (l : ErrLog) :
    (writeLog st l).capCalls = st.capCalls := rfl

lemma runRagExec_fail_obs (env : Rag.Env) (st : St) (task : PlanItem)
    (hres : (env.cap st.capCalls).result = "FAIL") :
    (Rag.runRagExec env st task).2 = some (env.cap st.capCalls).context ∧
    (Rag.runRagExec env st task).1.capCalls = st.capCalls + 1 ∧
    (Rag.runRagExec env st task).1.optArgs = st.optArgs := by
  simp [Rag.runRagExec, hres, writeTree, writeLog]

lemma runRagRetryLoop_fail_step (env : Rag.Env) (left : Nat) (st : St)
    (task : PlanItem) (h : (env.cap st.capCalls).result = "FAIL")
    (hleft : 0 < left) :
    ∃ (task' : PlanItem) (st' : St),
      Rag.runRagRetryLoop env (left + 1) st task =
        Rag.runRagRetryLoop env left st' task' ∧
      st'.capCalls = st.capCalls + 1 ∧
      st'.optArgs = st.optArgs ++ [(env.cap st.capCalls).context] := by
  have obs := runRagExec_fail_obs env st task h
  rcases hex : Rag.runRagExec env st task with ⟨st1, r1⟩
  rw [hex] at obs
  dsimp only at obs
  obtain ⟨hr1, hcap, hopt⟩ := obs
  subst hr1
  simp only [Rag.runRagRetryLoop, hex, hleft, if_true]
  exact ⟨_, _, rfl, by simpa using hcap, by simpa using hopt⟩

lemma runRagRetryLoop_fail_last (env : Rag.Env) (st : St) (task : PlanItem)
    (h : (env.cap st.capCalls).result = "FAIL") :
    (Rag.runRagRetryLoop env 1 st task).2 =
      RunRes.err (env.cap st.capCalls).context ∧
    (Rag.runRagRetryLoop env 1 st task).1.capCalls = st.capCalls + 1 ∧
    (Rag.runRagRetryLoop env 1 st task).1.optArgs = st.optArgs := by
  have obs := runRagExec_fail_obs env st task h
  rcases hex : Rag.runRagExec env st task with ⟨st1, r1⟩
  rw [hex] at obs
  dsimp only at obs
  obtain ⟨hr1, hcap, hopt⟩ := obs
  subst hr1
  simp only [Rag.runRagRetryLoop, hex]
  simpa using ⟨hcap, hopt⟩

lemma runRagRetryLoop_three_fails (env : Rag.Env) (st : St) (task : PlanItem)
    (h0 : (env.cap st.capCalls).result = "FAIL")
    (h1 : (env.cap (st.capCalls + 1)).result = "FAIL")
    (h2 : (env.cap (st.capCalls + 1 + 1)).result = "FAIL") :
    (Rag.runRagRetryLoop env 3 st task).2 =
      RunRes.err (env.cap (st.capCalls + 1 + 1)).context ∧
    (Rag.runRagRetryLoop env 3 st task).1.capCalls = st.capCalls + 1 + 1 + 1 ∧
    (Rag.runRagRetryLoop env 3 st task).1.optArgs =
      st.optArgs ++ [(env.cap st.capCalls).context,
        (env.cap (st.capCalls + 1)).context] := by
  obtain ⟨task1, st1, heq1, hcap1, hopt1⟩ :=
    runRagRetryLoop_fail_step env 2 st task h0 (by omega)
  obtain ⟨task2, st2, heq2, hcap2, hopt2⟩ :=
    runRagRetryLoop_fail_step env 1 st1 task1 (by rw [hcap1]; exact h1)
    (by omega)
  have hlast := runRagRetryLoop_fail_last env st2 task2
    (by rw [hcap2, hcap1]; exact h2)
  rw [heq1, heq2]
  rw [hcap2, hcap1] at hlast
  refine ⟨hlast.1, hlast.2.1, ?_⟩
  rw [hlast.2.2, hopt2, hopt1, hcap1]
  simp

end AgencySwarm

namespace AgencySwarm

lemma ragLoop3_res (env : Rag.Env) (stX : St) (taskX : PlanItem) (c : Nat)
    (hc : stX.capCalls = c)
    (h0 : (env.cap c).result = "FAIL")
    (h1 : (env.cap (c + 1)).result = "FAIL")
    (h2 : (env.cap (c + 1 + 1)).result = "FAIL") :
    (Rag.runRagRetryLoop env 3 stX taskX).2 =
      RunRes.err (env.cap (c + 1 + 1)).context := by
  subst hc
  exact (runRagRetryLoop_three_fails env stX taskX h0 h1 h2).1

lemma ragLoop3_cap (env : Rag.Env) (stX : St) (taskX : PlanItem) (c : Nat)
    (hc : stX.capCalls = c)
    (h0 : (env.cap c).result = "FAIL")
    (h1 : (env.cap (c + 1)).result = "FAIL")
    (h2 : (env.cap (c + 1 + 1)).result = "FAIL") :
    (Rag.runRagRetryLoop env 3 stX taskX).1.capCalls = c + 1 + 1 + 1 := by
  subst hc
  exact (runRagRetryLoop_three_fails env stX taskX h0 h1 h2).2.1

lemma ragLoop3_opt (env : Rag.Env) (stX : St) (taskX : PlanItem) (c : Nat)
    (base : List String) (hc : stX.capCalls = c) (hb : stX.optArgs = base)
    (h0 : (env.cap c).result = "FAIL")
    (h1 : (env.cap (c + 1)).result = "FAIL")
    (h2 : (env.cap (c + 1 + 1)).result = "FAIL") :
    (Rag.runRagRetryLoop env 3 stX taskX).1.optArgs =
      base ++ [(env.cap c).context, (env.cap (c + 1)).context] := by
  subst hc
  subst hb
  exact (runRagRetryLoop_three_fails env stX taskX h0 h1 h2).2.2

lemma jgc_fail_step (parse : String → Bool × String)
    (oracle : Nat → String → String) (orig : String) (left idx : Nat)
    (msg : String) (sent : List String)
    (hp : (parse (oracle idx msg)).1 = false) :
    json_get_completion parse oracle orig (left + 1) idx msg sent =
      json_get_completion parse oracle orig left (idx + 1)
        (mkFormatRetry orig (parse (oracle idx msg)).2)
        (sent ++ [mkFormatRetry orig (parse (oracle idx msg)).2]) := by
  rw [json_get_completion]
  rcases hpair : parse (oracle idx msg) with ⟨f, r⟩
  rw [hpair] at hp
  dsimp only at hp
  subst hp
  simp [hpair]

lemma jgc_fail_done (parse : String → Bool × String)
    (oracle : Nat → String → String) (orig : String) (idx : Nat)
    (msg : String) (sent : List String)
    (hp : (parse (oracle idx msg)).1 = false) :
    json_get_completion parse oracle orig 0 idx msg sent =
      (emptyJson, idx + 1, sent) := by
  rw [json_get_completion]
  rcases hpair : parse (oracle idx msg) with ⟨f, r⟩
  rw [hpair] at hp
  dsimp only at hp
  subst hp
  simp [hpair]

lemma graph_key_unique (g : Graph) (k : String) (e e' : PlanItem)
    (hnd : (g.map (·.1)).Nodup) (h1 : (k, e) ∈ g) (h2 : (k, e') ∈ g) :
    e = e' := by
  induction g with
  | nil => cases h1
  | cons p rest ih =>
    simp only [List.map_cons, List.nodup_cons] at hnd
    rcases List.mem_cons.1 h1 with rfl | h1'
    · rcases List.mem_cons.1 h2 with h2h | h2'
      · exact (Prod.ext_iff.1 h2h).2.symm
      · exact absurd (List.mem_map_of_mem (·.1) h2') (by simpa using hnd.1)
    · rcases List.mem_cons.1 h2 with rfl | h2'
      · exact absurd (List.mem_map_of_mem (·.1) h1') (by simpa using hnd.1)
      · exact ih hnd.2 h1' h2'

lemma lookup_updateFirst_ne (log : ErrLog) (n k : Nat) (rec0 : ErrRecord)
    (hk : k ≠ n) :
    List.lookup k (updateFirst (·.1 == n) (fun _ => (n, rec0)) log) =
      List.lookup k log := by
  induction log with
  | nil => rfl
  | cons p rest ih =>
    by_cases hp : p.1 = n
    · simp only [updateFirst, hp]
      simp only [beq_self_eq_true, if_true]
      have h1 : (k == n) = false := by simpa using hk
      have h2 : (k == p.1) = false := by simp [hp, hk]
      simp [List.lookup, h1, h2]
    · have hb : (p.1 == n) = false := by simpa using hp
      simp only [updateFirst, hb, if_false]
      by_cases hkp : k = p.1
      · simp [List.lookup, hkp]
      · have h2 : (k == p.1) = false := by simpa using hkp
        simp [List.lookup, h2, ih]

lemma lookup_append_ne (log : ErrLog) (n k : Nat) (rec0 : ErrRecord)
    (hk : k ≠ n) :
    List.lookup k (log ++ [(n, rec0)]) = List.lookup k log := by
  induction log with
  | nil =>
    have h1 : (k == n) = false := by simpa using hk
    simp [List.lookup, h1]
  | cons p rest ih =>
    by_cases hkp : k = p.1
    · simp [List.lookup, hkp]
    · have h2 : (k == p.1) = false := by simpa using hkp
      simp [List.lookup, h2, ih]

lemma lookup_updateFirst_self (log : ErrLog) (n : Nat) (rec0 : ErrRecord)
    (hin : log.any (·.1 == n) = true) :
    List.lookup n (updateFirst (·.1 == n) (fun _ => (n, rec0)) log) =
      some rec0 := by
  induction log with
  | nil => simp at hin
  | cons p rest ih =>
    by_cases hp : p.1 = n
    · simp only [updateFirst, hp, beq_self_eq_true, if_true]
      simp [List.lookup]
    · have hb : (p.1 == n) = false := by simpa using hp
      simp only [updateFirst, hb, if_false]
      have h2 : (n == p.1) = false := by simp [Ne.symm hp]
      simp only [List.any_cons, hb, Bool.false_or] at hin
      simp [List.lookup, h2, ih hin]

lemma lookup_append_self (log : ErrLog) (n : Nat) (rec0 : ErrRecord)
    (hnotin : log.any (·.1 == n) = false) :
    List.lookup n (log ++ [(n, rec0)]) = some rec0 := by
  induction log with
  | nil => simp [List.lookup]
  | cons p rest ih =>
    simp only [List.any_cons, Bool.or_eq_false_iff] at hnotin
    have h2 : (n == p.1) = false := by
      rcases hnotin with ⟨h1, _⟩
      simp only [beq_eq_false_iff_ne] at h1 ⊢
      exact fun h => h1 (h.symm)
    simp [List.lookup, h2, ih hnotin.2]

end AgencySwarm

namespace AgencySwarm

/-- C1: the claim says a work item's persisted status becomes "completed"
only after its capability execution returned SUCCESS (and all children
completed).  The RAG flow violates this: after the third consecutive FAIL
escalates, the `break` at agency.py line 2236 falls through to the
completion code at lines 2238-2245, so the failed task is persisted as
"completed".  Evidence: running the RAG flow (planner returns one task,
capability fails three times) produces a persisted tree snapshot in which
task `t1` has status "completed" while its own rag-action log holds
exactly three FAIL actions and no SUCCESS. -/
theorem rag_failed_task_persisted_completed :
    ((Rag.task_planning_rag envRagRecover "req" 10).1.treeHist.any
      (fun t => t.tasks.any (fun tk =>
        tk.id == "t1" && tk.status == "completed" &&
        tk.rag_actions.length == 3 &&
        tk.rag_actions.all (·.result == "FAIL")))) = true := by rfl

/-- C2: for every graph and completed list, `code_scheduling_layer`
returns exactly the ids keyed in the graph that are not completed and
whose every dependency is completed. -/
theorem code_scheduling_layer_ready_iff (graph : Graph)
    (completed : List String) (x : String) :
    x ∈ code_scheduling_layer graph completed ↔
      ∃ e : PlanItem, (x, e) ∈ graph ∧ x ∉ completed ∧
        ∀ d ∈ e.dep, d ∈ completed :=
  mem_code_scheduling_layer graph completed x

/-- C3 counterexample: in the strict flow a leaf FAIL never reaches the
request level.  With a planner giving one task / one subtask / one step
and a capability whose first call FAILs with "disk full", the error is
recorded, the task's subtask planner is re-invoked with "disk full" — but
the request-level planner is invoked exactly once, with an empty error
message, and the request finishes "completed" without ever being
replanned, contradicting the claim that the failure bubbles past the Task
level so that the Orchestrator replans the entire request. -/
theorem strict_fail_never_replans_request_cx :
    (Strict.task_planning envStrict1 "req" 10).1.reqPlanArgs = [""] ∧
    (Strict.task_planning envStrict1 "req" 10).1.subPlanArgs =
      ["", "disk full"] ∧
    (Strict.task_planning envStrict1 "req" 10).1.errLog =
      [(1, ⟨"error_1", itm "p1" [], .act ⟨"FAIL", "disk full"⟩⟩)] ∧
    (Strict.task_planning envStrict1 "req" 10).2 = RunRes.ok :=
  ⟨rfl, rfl, rfl, rfl⟩

/-- C3 (amended): in the strict flow, a leaf capability FAIL appends an
ErrorRecord with the failing action and message, clears the failed step
node, and bubbles the failure message up only to the Task level, whose
subtask decomposition is replanned with that message; it never bubbles
past the Task level — the request planner is invoked exactly once per
`task_planning` run, always with the empty error message (nothing in this
flow sets `original_request_error_flag`). -/
theorem strict_failure_stops_at_task_level :
    (∀ (env : Strict.Env) (orig : String) (fuel : Nat),
      (Strict.task_planning env orig (fuel + 1)).1.reqPlanArgs = [""]) ∧
    (∀ (env : Strict.Env) (st : St) (tid sid : String) (step : PlanItem),
      (env.cap st.capCalls).result = "FAIL" →
      (Strict.runStepOnce env st tid sid step).2 =
        some (env.cap st.capCalls).context ∧
      (Strict.runStepOnce env st tid sid step).1.errLog =
        update_error st.errLog (st.errorId + 1) (.act (env.cap st.capCalls))
          step ∧
      (Strict.runStepOnce env st tid sid step).1.tree =
        clear_context_tree_node
          (update_context_tree st.tree (some tid) (some sid) (some step.id)
            none none none (some (env.cap st.capCalls)) none)
          (some tid) (some sid) (some step.id)) ∧
    (∀ (env : Strict.Env) (tid : String) (fuel : Nat) (st : St)
      (msg : String), 0 < fuel →
      st.subPlanArgs ++ [msg] <+:
        (Strict.runTaskBody env tid fuel st msg).1.subPlanArgs) := by
  refine ⟨?_, ?_, ?_⟩
  · intro env orig fuel
    rw [Strict.task_planning, runRequest_reqPlanArgs]
    rfl
  · intro env st tid sid step h
    exact runStepOnce_fail env st tid sid step h
  · intro env tid fuel st msg h
    exact runTaskBody_subArgs_prefix env tid fuel st msg h

/-- C3 witness: the amended theorem applied at concrete inputs. -/
theorem strict_failure_stops_at_task_level_witness :
    (Strict.task_planning envStrict1 "req" 3).1.reqPlanArgs = [""] ∧
    (Strict.runStepOnce envStrictFail st0 "t1" "s1" (itm "p1" [])).2 =
      some (envStrictFail.cap st0.capCalls).context ∧
    st0.subPlanArgs ++ ["m"] <+:
      (Strict.runTaskBody envStrict1 "t1" 1 st0 "m").1.subPlanArgs :=
  ⟨strict_failure_stops_at_task_level.1 envStrict1 "req" 2,
   (strict_failure_stops_at_task_level.2.1 envStrictFail st0 "t1" "s1"
     (itm "p1" []) rfl).1,
   strict_failure_stops_at_task_level.2.2 envStrict1 "t1" 1 st0 "m"
     (by omega)⟩

/-- C4 counterexample: under the RAG flow with a capability that always
FAILs, a task is executed exactly 3 times and the third failure escalates
(`RunRes.err`) — the optimizer is called 3 times in total (once before the
first attempt and once after each of the first two failures).  The claim
says the 3rd failure triggers an in-place re-optimization and only a 4th
consecutive FAIL escalates; the code never consumes a 4th FAIL. -/
theorem rag_third_failure_escalates_cx :
    (Rag.runRagTaskFull envRagFail st0 [itm "t1" []] "t1").2 =
      RunRes.err "boom" ∧
    (Rag.runRagTaskFull envRagFail st0 [itm "t1" []] "t1").1.capCalls = 3 ∧
    (Rag.runRagTaskFull envRagFail st0 [itm "t1" []] "t1").1.optArgs =
      ["", "boom", "boom"] :=
  ⟨rfl, rfl, rfl⟩

/-- C4 (amended): given three consecutive FAIL results for a task under
the RAG flow, the 1st and 2nd failures each trigger an in-place
re-optimization (recording the failure message as the optimizer's
`last_error`) followed by a retry, and the 3rd failure triggers
escalation to a request-level replan; exactly three capability executions
are consumed, so a 4th consecutive FAIL of the same task never occurs. -/
theorem rag_bounded_retry_schedule (env : Rag.Env) (st : St)
    (tasks : List PlanItem) (id : String)
    (h0 : (env.cap st.capCalls).result = "FAIL")
    (h1 : (env.cap (st.capCalls + 1)).result = "FAIL")
    (h2 : (env.cap (st.capCalls + 1 + 1)).result = "FAIL") :
    (Rag.runRagTaskFull env st tasks id).2 =
      RunRes.err (env.cap (st.capCalls + 1 + 1)).context ∧
    (Rag.runRagTaskFull env st tasks id).1.capCalls =
      st.capCalls + 1 + 1 + 1 ∧
    (Rag.runRagTaskFull env st tasks id).1.optArgs =
      (st.optArgs ++ [""]) ++
        [(env.cap st.capCalls).context,
         (env.cap (st.capCalls + 1)).context] := by
  refine ⟨?_, ?_, ?_⟩
  · exact ragLoop3_res env _ _ st.capCalls (by simp) h0 h1 h2
  · simp only [Rag.runRagTaskFull, writeTree_capCalls]
    exact ragLoop3_cap env _ _ st.capCalls (by simp) h0 h1 h2
  · simp only [Rag.runRagTaskFull, writeTree_optArgs]
    exact ragLoop3_opt env _ _ st.capCalls (st.optArgs ++ [""]) (by simp)
      (by simp) h0 h1 h2

/-- C4 witness: the amended theorem applied at concrete inputs. -/
theorem rag_bounded_retry_schedule_witness :
    (Rag.runRagTaskFull envRagFail st0 [itm "t1" []] "t1").2 =
      RunRes.err (envRagFail.cap (st0.capCalls + 1 + 1)).context ∧
    (Rag.runRagTaskFull envRagFail st0 [itm "t1" []] "t1").1.capCalls =
      st0.capCalls + 1 + 1 + 1 ∧
    (Rag.runRagTaskFull envRagFail st0 [itm "t1" []] "t1").1.optArgs =
      (st0.optArgs ++ [""]) ++
        [(envRagFail.cap st0.capCalls).context,
         (envRagFail.cap (st0.capCalls + 1)).context] :=
  rag_bounded_retry_schedule envRagFail st0 [itm "t1" []] "t1" rfl rfl rfl

/-- C5 counterexample: in the RAG flow's task round the
`if original_request_error_flag: break` sits after the `for` loop
(agency.py line 2247), so after the first task of a two-task round fails
and escalates, the second task is still executed: six capability calls
are consumed (three per task) and both ids end up in the completed list,
contradicting the claim that once a single item of a round has failed
none of the remaining items of that round is executed. -/
theorem rag_round_continues_after_failure_cx :
    (Rag.runRagRound envRagTwo [itm "t1" [], itm "t2" []] ["t1", "t2"] st0
      [] none).2.2 = some "boom" ∧
    (Rag.runRagRound envRagTwo [itm "t1" [], itm "t2" []] ["t1", "t2"] st0
      [] none).1.capCalls = 6 ∧
    (Rag.runRagRound envRagTwo [itm "t1" [], itm "t2" []] ["t1", "t2"] st0
      [] none).2.1 = ["t1", "t2"] :=
  ⟨rfl, rfl, rfl⟩

/-- C5 (amended): in the strict flow's step and subtask rounds,
first-failure-wins holds: if every item before some position succeeds and
the item at that position fails, the round's result is the same as if the
later items were absent (they are never started) and the round reports
the failure.  (In the RAG flow's task round this is not the case: the
remaining ready tasks of the round are still executed after an
escalation.) -/
theorem strict_round_first_failure_aborts :
    (∀ (env : Strict.Env) (tid sid : String) (steps : List PlanItem)
      (pre : List String) (bad : String) (post : List String) (st : St)
      (completed : List String),
      (Strict.runStepsRound env tid sid steps pre st completed).2.2 =
        none →
      (env.cap (Strict.runStepsRound env tid sid steps pre st
        completed).1.capCalls).result = "FAIL" →
      Strict.runStepsRound env tid sid steps (pre ++ bad :: post) st
          completed =
        Strict.runStepsRound env tid sid steps (pre ++ [bad]) st
          completed ∧
      (Strict.runStepsRound env tid sid steps (pre ++ bad :: post) st
          completed).2.2 =
        some (env.cap (Strict.runStepsRound env tid sid steps pre st
          completed).1.capCalls).context) ∧
    (∀ (env : Strict.Env) (tid : String) (subs : List PlanItem)
      (fuel : Nat) (pre : List String) (bad : String) (post : List String)
      (st : St) (completed : List String) (m : String),
      (Strict.runSubtasksRound env tid subs fuel pre st completed).2.2 =
        RunRes.ok →
      (Strict.runSubtaskBody env tid (findItem subs bad) "" fuel
        (writeTree (Strict.runSubtasksRound env tid subs fuel pre st
          completed).1
          (update_context_tree (Strict.runSubtasksRound env tid subs fuel
            pre st completed).1.tree
            (some tid) (some bad) none (some "executing")
            (some (findItem subs bad).title)
            (some (findItem subs bad).description) none none))).2 =
        RunRes.err m →
      Strict.runSubtasksRound env tid subs fuel (pre ++ bad :: post) st
          completed =
        Strict.runSubtasksRound env tid subs fuel (pre ++ [bad]) st
          completed ∧
      (Strict.runSubtasksRound env tid subs fuel (pre ++ bad :: post) st
          completed).2.2 = RunRes.err m) := by
  constructor
  · intro env tid sid steps pre bad post st completed hpre hfail
    exact runStepsRound_abort env tid sid steps pre bad post st completed
      hpre hfail
  · intro env tid subs fuel pre bad post st completed m hpre hfail
    exact runSubtasksRound_abort env tid subs fuel pre bad post st
      completed m hpre hfail

/-- C5 witness: the amended theorem applied at concrete inputs (a
two-step round whose first step fails, and a two-subtask round whose
first subtask fails). -/
theorem strict_round_first_failure_aborts_witness :
    (Strict.runStepsRound envStrictFail "t1" "s1"
        [itm "p1" [], itm "p2" []] ["p1", "p2"] st0 [] =
      Strict.runStepsRound envStrictFail "t1" "s1"
        [itm "p1" [], itm "p2" []] ["p1"] st0 [] ∧
      (Strict.runStepsRound envStrictFail "t1" "s1"
        [itm "p1" [], itm "p2" []] ["p1", "p2"] st0 [] ).2.2 =
        some (envStrictFail.cap (Strict.runStepsRound envStrictFail "t1"
          "s1" [itm "p1" [], itm "p2" []] [] st0 []).1.capCalls).context) ∧
    (Strict.runSubtasksRound envStrictFail "t1"
        [itm "s1" [], itm "s2" []] 3 ["s1", "s2"] st0 [] =
      Strict.runSubtasksRound envStrictFail "t1"
        [itm "s1" [], itm "s2" []] 3 ["s1"] st0 [] ∧
      (Strict.runSubtasksRound envStrictFail "t1"
        [itm "s1" [], itm "s2" []] 3 ["s1", "s2"] st0 []).2.2 =
        RunRes.err "boom") :=
  ⟨strict_round_first_failure_aborts.1 envStrictFail "t1" "s1"
    [itm "p1" [], itm "p2" []] [] "p1" ["p2"] st0 [] rfl rfl,
   strict_round_first_failure_aborts.2 envStrictFail "t1"
    [itm "s1" [], itm "s2" []] 3 [] "s1" ["s2"] st0 [] "boom" rfl
    (by rfl)⟩

/-- C6: a response from which no JSON object can be extracted makes
`json_get_completion` retry with a correction note quoting the previous
answer and saying its format was wrong; the retries are bounded at 3
(four collaborator calls in total), and when the bound is exhausted the
call is abandoned and the empty JSON object is returned. -/
theorem json_format_retry_bounded_empty_result
    (parse : String → Bool × String) (oracle : Nat → String → String)
    (orig : String)
    (h : ∀ k, k < 4 →
      (parse (oracle k (retryMsg parse oracle orig k))).1 = false) :
    json_get_completion_call parse oracle orig =
      (emptyJson, 4,
       [retryMsg parse oracle orig 0, retryMsg parse oracle orig 1,
        retryMsg parse oracle orig 2, retryMsg parse oracle orig 3]) := by
  have h0 := h 0 (by omega)
  have h1 := h 1 (by omega)
  have h2 := h 2 (by omega)
  have h3 := h 3 (by omega)
  simp only [retryMsg] at h0 h1 h2 h3
  rw [json_get_completion_call,
    jgc_fail_step parse oracle orig 2 0 orig [orig] h0]
  rw [jgc_fail_step parse oracle orig 1 1 _ _ (by simpa [retryMsg] using h1)]
  rw [jgc_fail_step parse oracle orig 0 2 _ _ (by simpa [retryMsg] using h2)]
  rw [jgc_fail_done parse oracle orig 3 _ _ (by simpa [retryMsg] using h3)]
  simp [retryMsg]

/-- C6 witness: the theorem applied to an extractor that never finds a
JSON object. -/
theorem json_format_retry_bounded_empty_result_witness :
    json_get_completion_call parseNever oracleJunk "m" =
      (emptyJson, 4,
       [retryMsg parseNever oracleJunk "m" 0,
        retryMsg parseNever oracleJunk "m" 1,
        retryMsg parseNever oracleJunk "m" 2,
        retryMsg parseNever oracleJunk "m" 3]) :=
  json_format_retry_bounded_empty_result parseNever oracleJunk "m"
    (fun _ _ => rfl)

/-- C7: the code-level scheduler tolerates cycles: whenever every
not-yet-completed node has at least one unmet dependency (as in any
dependency cycle whose members are incomplete), the ready list is empty,
and the owning scheduling loop treats an empty ready list as level
completion (it returns `RunRes.ok`, not an error). -/
theorem scheduler_cycle_tolerant_completion :
    (∀ (graph : Graph) (C : List String),
      (∀ p ∈ graph, p.1 ∉ C → ∃ d ∈ p.2.dep, d ∉ C) →
      code_scheduling_layer graph C = []) ∧
    (∀ (env : Strict.Env) (graph : Graph) (tasks : List PlanItem)
      (fuel : Nat) (st : St) (completed : List String),
      code_scheduling_layer graph completed = [] →
      Strict.runTaskSched env graph tasks (fuel + 1) st completed =
        (st, RunRes.ok)) := by
  constructor
  · intro graph C h
    unfold code_scheduling_layer
    rw [List.map_eq_nil_iff]
    rw [List.filter_eq_nil_iff]
    intro p hp
    by_cases hc : p.1 ∈ C
    · simp [List.contains, List.elem_eq_mem, hc]
    · obtain ⟨d, hd, hdc⟩ := h p hp hc
      simp only [Bool.and_eq_true, List.all_eq_true, not_and]
      intro _
      intro hall
      have := hall d hd
      simp [List.contains, List.elem_eq_mem, hdc] at this
  · intro env graph tasks fuel st completed h
    simp [Strict.runTaskSched, h]

/-- C7 witness: the theorem applied to a two-node cycle. -/
theorem scheduler_cycle_tolerant_completion_witness :
    code_scheduling_layer gcyc [] = [] ∧
    Strict.runTaskSched envStrict1 gcyc [itm "a" ["b"], itm "b" ["a"]] 5
      st0 [] = (st0, RunRes.ok) :=
  ⟨scheduler_cycle_tolerant_completion.1 gcyc [] (by decide),
   scheduler_cycle_tolerant_completion.2 envStrict1 gcyc
     [itm "a" ["b"], itm "b" ["a"]] 4 st0 []
     (by decide)⟩

/-- C8 counterexample: a graph whose only item references the
nonexistent id `"b"` raises no error anywhere: the scheduler silently
returns an empty ready list and the scheduling loop treats that as level
completion (`RunRes.ok`, state untouched, nothing executed) — the
dangling reference is not surfaced as a hard planning error. -/
theorem dangling_dep_tolerated_cx :
    code_scheduling_layer gdangling [] = [] ∧
    Strict.runTaskSched envStrict1 gdangling [itm "a" ["b"]] 5 st0 [] =
      (st0, RunRes.ok) :=
  ⟨rfl, rfl⟩

/-- C8 (amended): an item whose `dep` list references an id not present
in the graph is silently tolerated: under any completed set drawn from
the graph's ids, that item is simply never returned ready (and the loop
eventually treats the resulting empty ready set as completion); no error
is raised or surfaced. -/
theorem dangling_dep_never_scheduled (graph : Graph) (C : List String)
    (k : String) (e : PlanItem) (d : String)
    (hnd : (graph.map (·.1)).Nodup) (hmem : (k, e) ∈ graph)
    (hd : d ∈ e.dep) (hdang : d ∉ graph.map (·.1))
    (hsub : ∀ c ∈ C, c ∈ graph.map (·.1)) :
    k ∉ code_scheduling_layer graph C := by
  intro hk
  obtain ⟨e', he', _, hdep⟩ := (mem_code_scheduling_layer graph C k).1 hk
  have : e' = e := graph_key_unique graph k e' e hnd he' hmem
  subst this
  exact hdang (hsub d (hdep d hd))

/-- C8 witness: the amended theorem applied to the dangling-reference
graph. -/
theorem dangling_dep_never_scheduled_witness :
    "a" ∉ code_scheduling_layer gdangling [] :=
  dangling_dep_never_scheduled gdangling [] "a" (itm "a" ["b"]) "b"
    (by decide) (by decide) (by decide) (by decide) (by decide)

/-- C9 counterexample: the error log is not append-only across the flow:
running the RAG flow (one task failing three times, then succeeding after
the request replan), record 1 is durably written — some persisted log
snapshot contains key 1 — but the `_init_file(self.error_path)` at the
start of the next request planning round truncates the document, and the
final persisted error log is empty. -/
theorem error_log_truncated_on_replan_cx :
    ((Rag.task_planning_rag envRagRecover "req" 10).1.logHist.any
      (fun l => l.any (fun p => p.1 == 1))) = true ∧
    (Rag.task_planning_rag envRagRecover "req" 10).1.errLog = [] :=
  ⟨rfl, rfl⟩

/-- C9 (amended): within one request-level planning round the error log
is append-only — `update_error` never touches the record of any other
key, and stores the new record under its own key — but each request-level
(re)planning truncates the whole error document. -/
theorem update_error_preserves_other_records :
    (∀ (log : ErrLog) (n : Nat) (e : ErrVal) (s : PlanItem) (k : Nat),
      k ≠ n →
      List.lookup k (update_error log n e s) = List.lookup k log) ∧
    (∀ (log : ErrLog) (n : Nat) (e : ErrVal) (s : PlanItem),
      List.lookup n (update_error log n e s) =
        some { error_id := "error_" ++ toString n, step := s,
               error := e }) := by
  constructor
  · intro log n e s k hk
    unfold update_error
    split
    · exact lookup_updateFirst_ne log n k _ hk
    · exact lookup_append_ne log n k _ hk
  · intro log n e s
    unfold update_error
    split
    · next hin => exact lookup_updateFirst_self log n _ hin
    · next hnotin =>
      exact lookup_append_self log n _ (Bool.eq_false_iff.mpr hnotin)

/-- C9 witness: the amended theorem applied at a concrete log. -/
theorem update_error_preserves_other_records_witness :
    List.lookup 1 (update_error [(1, errRec1)] 2 (.msg "x") (itm "a" [])) =
      List.lookup 1 [(1, errRec1)] ∧
    List.lookup 2 (update_error [(1, errRec1)] 2 (.msg "x") (itm "a" [])) =
      some ⟨"error_2", itm "a" [], .msg "x"⟩ :=
  ⟨update_error_preserves_other_records.1 [(1, errRec1)] 2 (.msg "x")
     (itm "a" []) 1 (by omega),
   update_error_preserves_other_records.2 [(1, errRec1)] 2 (.msg "x")
     (itm "a" [])⟩

/-- C10 counterexample: a review response that cannot be parsed as the
`\x7breview, explain\x7d` shape is not treated as a format failure and is not
retried: if its prose contains the substring "YES" it is accepted as an
approval on the spot — `json_get_completion` returns the plan after a
single collaborator call and a single inspector call. -/
theorem prose_review_with_yes_accepted_cx :
    json_get_completion_insp parseOK oraclePlan inspProseYes "m" 5 0 0 0
      "m" = (some "PLAN", 1, 1) ∧
    get_inspector_review (JMsg.bad "SURE, YES, THE PLAN LOOKS GREAT.") =
      true :=
  ⟨rfl, rfl⟩

/-- C10 (amended): a parsed review is an approval iff its `review` field
equals "YES"; an approval makes `json_get_completion` return the plan,
a rejection makes it resend (uncapped, with the inspector's raw text as
feedback, not counted against the format bound); and an unparseable
review response is accepted as an approval exactly when its raw text
contains the substring "YES". -/
theorem review_parse_fallback_semantics :
    (∀ (parse : String → Bool × String) (oracle : Nat → String → String)
      (insp : Nat → JMsg) (orig : String) (fuel idx iidx count : Nat)
      (msg : String),
      (parse (oracle idx msg)).1 = true →
      get_inspector_review (insp iidx) = true →
      json_get_completion_insp parse oracle insp orig (fuel + 1) idx iidx
        count msg = (some (parse (oracle idx msg)).2, idx + 1, iidx + 1)) ∧
    (∀ (parse : String → Bool × String) (oracle : Nat → String → String)
      (insp : Nat → JMsg) (orig : String) (fuel idx iidx count : Nat)
      (msg : String),
      (parse (oracle idx msg)).1 = true →
      get_inspector_review (insp iidx) = false →
      json_get_completion_insp parse oracle insp orig (fuel + 1) idx iidx
        count msg =
        json_get_completion_insp parse oracle insp orig fuel (idx + 1)
          (iidx + 1) count
          (mkFeedback orig (parse (oracle idx msg)).2 (insp iidx).raw)) ∧
    (∀ raw : String,
      get_inspector_review (JMsg.bad raw) = true ↔
        "YES".toList <:+: raw.toList) := by
  refine ⟨?_, ?_, ?_⟩
  · intro parse oracle insp orig fuel idx iidx count msg hp hr
    rcases hpair : parse (oracle idx msg) with ⟨f, r⟩
    rw [hpair] at hp
    dsimp only at hp
    subst hp
    simp [json_get_completion_insp, hpair, hr]
  · intro parse oracle insp orig fuel idx iidx count msg hp hr
    rcases hpair : parse (oracle idx msg) with ⟨f, r⟩
    rw [hpair] at hp
    dsimp only at hp
    subst hp
    simp [json_get_completion_insp, hpair, hr]
  · intro raw
    simp [get_inspector_review, containsYES]

/-- C10 witness: the amended theorem applied at concrete inputs. -/
theorem review_parse_fallback_semantics_witness :
    json_get_completion_insp parseOK oraclePlan inspProseYes "m" 1 0 0 0
      "m" = (some (parseOK (oraclePlan 0 "m")).2, 0 + 1, 0 + 1) ∧
    (get_inspector_review (JMsg.bad "NO WAY") = true ↔
      "YES".toList <:+: "NO WAY".toList) :=
  ⟨review_parse_fallback_semantics.1 parseOK oraclePlan inspProseYes "m"
     0 0 0 0 "m" rfl (by decide),
   review_parse_fallback_semantics.2.2 "NO WAY"⟩

end AgencySwarm
